import Mathlib

/-!
Verification of the ibis node-framework / translation-engine core against
its specification.  The definitions below are shallow embeddings of:

  * `ibis/common/annotations.py`         (`Signature.merge`)
  * `ibis/backends/base/sql/registry/string.py` (`substring`, `string_find`)
  * `ibis/backends/polars/compiler.py`   (the translate dispatch table and
    the rendering rules `join`, `dropna`, `selection`, `simple_case`,
    `searched_case`, `lpad`, `rpad`, `string_split`, `string_join`,
    `string_startswith`, `string_endswith`, `_assert_literal`)

Python values that matter to the claims (literal values, rendered polars
expressions, lazy-frame operation chains, error objects) are modelled by
the inductive types `PVal`, `PExpr`, `LFrame` and `TError`.
-/

/-- A scalar value carried by a `Literal` node or produced by evaluating a
rendered polars expression. -/
inductive PVal where
  | i (n : Int)
  | s (v : String)
  | b (v : Bool)
  | null
deriving DecidableEq

/-- A rendered polars expression (the output of a value-level rendering
rule): literals (`pl.lit`), column references (`pl.col`), equality and
conjunction of expressions, the `pl.when(c).then(t).otherwise(o)`
combinator, and the string methods used by the rules under study. -/
inductive PExpr where
  | lit (v : PVal)
  | col (name : String)
  | eqE (a b : PExpr)
  | andE (a b : PExpr)
  | whenThenOtherwise (c t o : PExpr)
  | endsWith (arg : PExpr) (suffix : PVal)
  | rjust (arg : PExpr) (length pad : PVal)
  | ljust (arg : PExpr) (length pad : PVal)
  | splitE (arg : PExpr) (delim : PVal)
  | concatStr (args : List PExpr) (sep : Option PVal)

/-- A rendered polars lazy-frame operation chain (the output of a
table-level rendering rule). -/
inductive LFrame where
  | base (id : String)
  | filterF (lf : LFrame) (pred : PExpr)
  | selectF (lf : LFrame) (cols : List PExpr)
  | sortF (lf : LFrame) (names : List String) (reverse : List Bool)
  | joinF (l r : LFrame) (left_on right_on : List PExpr) (how : String)
  | dropNullsF (lf : LFrame) (subset : Option (List String))

/-- The errors a rendering rule can raise (`ibis.common.exceptions`):
`UnsupportedArgumentError`, `TranslationError`,
`OperationNotDefinedError`, plus the `NotImplementedError` of the
undispatched base `translate` function. -/
inductive TError where
  | unsupportedArgument (msg : String)
  | translationError (msg : String)
  | operationNotDefined (msg : String)
  | notImplemented (msg : String)
deriving DecidableEq

/-- A child node in a position where a rule may demand a literal:
either an `ops.Literal` carrying its value, or any other (computed)
node, identified by its `name` property. -/
inductive Child where
  | literalC (name : String) (v : PVal)
  | computedC (name : String)
deriving DecidableEq

/-- `op.value` of a literal child (only ever read after
`_assert_literal` has succeeded; the `.null` default is unreachable). -/
def Child.value : Child → PVal
  | .literalC _ v => v
  | .computedC _ => .null

/-- Whether a child node is an `ops.Literal`. -/
def Child.isLiteral : Child → Bool
  | .literalC _ _ => true
  | .computedC _ => false

/-- `_assert_literal(op)`: raise `UnsupportedArgumentError` unless the
node is a Literal. -/
def assertLiteral : Child → Except TError Unit
  | .literalC _ _ => .ok ()
  | .computedC name =>
      .error (.unsupportedArgument
        ("Polars does not support columnar argument " ++ name))

/-- A child argument of the SQL-text string rules: an integer
`ops.Literal`, or a non-literal node already rendered to a SQL
fragment by `translator.translate`. -/
inductive SqlArg where
  | litI (v : Int)
  | nonlit (fragment : String)
deriving DecidableEq

/-- `substring(translator, op)` from
`ibis/backends/base/sql/registry/string.py`.  `argF` and `startF` are the
already-translated fragments of `op.arg` and `op.start`; `length` is the
raw `op.length` child (`none` when absent).  The Python code tests
`lvalue := getattr(length, "value", None)` for truthiness, so a literal
length of 0 takes the two-argument branch. -/
def substring (argF startF : String) (length : Option SqlArg) : String :=
  match length with
  | none => "substr(" ++ argF ++ ", " ++ startF ++ " + 1)"
  | some (.litI v) =>
      if v ≠ 0 then
        "substr(" ++ argF ++ ", " ++ startF ++ " + 1, " ++ toString v ++ ")"
      else
        "substr(" ++ argF ++ ", " ++ startF ++ " + 1)"
  | some (.nonlit f) =>
      "substr(" ++ argF ++ ", " ++ startF ++ " + 1, " ++ f ++ ")"

/-- `string_find(translator, op)` from the same file.  `argF` and
`substrF` are the translated fragments of `op.arg` and `op.substr`;
`start` is the raw `op.start` child.  The Python function has no return
statement on the path where `start` is a Literal whose value is falsy
(0), so it returns `None` there: the result type is `Option String`. -/
def string_find (argF substrF : String) (start : Option SqlArg) :
    Option String :=
  match start with
  | some (.nonlit f) =>
      some ("locate(" ++ substrF ++ ", " ++ argF ++ ", " ++ f ++
        " + 1) - 1")
  | some (.litI v) =>
      if v ≠ 0 then
        some ("locate(" ++ substrF ++ ", " ++ argF ++ ", " ++
          toString (v + 1) ++ ") - 1")
      else
        none
  | none => some ("locate(" ++ substrF ++ ", " ++ argF ++ ") - 1")

/-- Evaluator for the fragment of the polars expression algebra used by
the case-expression rules: literals, equality, conjunction and
`when/then/otherwise`.  Column references and string methods need a
dataframe and evaluate to `none` here. -/
def peval : PExpr → Option PVal
  | .lit v => some v
  | .eqE a b =>
      match peval a, peval b with
      | some x, some y => some (.b (x == y))
      | _, _ => none
  | .andE a b =>
      match peval a, peval b with
      | some (.b x), some (.b y) => some (.b (x && y))
      | _, _ => none
  | .whenThenOtherwise c t o =>
      match peval c with
      | some (.b true) => peval t
      | some (.b false) => peval o
      | _ => none
  | _ => none

/-- `simple_case(op)` from `ibis/backends/polars/compiler.py`: starting
from the translated default, loop over `reversed(list(zip(cases,
results)))` wrapping the accumulator in
`pl.when(base == case).then(result).otherwise(acc)`.  `base`, the
elements of `cases`/`results` and `default` are the translated children. -/
def simple_case (base : PExpr) (cases results : List PExpr)
    (default : PExpr) : PExpr :=
  ((cases.zip results).reverse).foldl
    (fun acc cr => PExpr.whenThenOtherwise (PExpr.eqE base cr.1) cr.2 acc)
    default

/-- `searched_case(op)` from the same file: identical loop, except the
condition is the translated case itself rather than `base == case`. -/
def searched_case (cases results : List PExpr) (default : PExpr) : PExpr :=
  ((cases.zip results).reverse).foldl
    (fun acc cr => PExpr.whenThenOtherwise cr.1 cr.2 acc)
    default

/-- `string_startswith(op)`: translate `op.arg`, `_assert_literal` on
`op.start`, then render `arg.str.ends_with(op.start.value)` (the source
really does call `ends_with` here). -/
def string_startswith (arg : PExpr) (start : Child) : Except TError PExpr := do
  assertLiteral start
  pure (PExpr.endsWith arg start.value)

/-- `string_endswith(op)`: translate `op.arg`, `_assert_literal` on
`op.end`, then render `arg.str.ends_with(op.end.value)`. -/
def string_endswith (arg : PExpr) (endArg : Child) : Except TError PExpr := do
  assertLiteral endArg
  pure (PExpr.endsWith arg endArg.value)

/-- `string_split(op)`: `_assert_literal` on the delimiter, then
`arg.str.split(op.delimiter.value)`. -/
def string_split (arg : PExpr) (delimiter : Child) : Except TError PExpr := do
  assertLiteral delimiter
  pure (PExpr.splitE arg delimiter.value)

/-- `string_join(op)`: `_assert_literal` on the separator, then
`pl.concat_str(args, sep=op.sep.value)`. -/
def string_join (args : List PExpr) (sep : Child) : Except TError PExpr := do
  assertLiteral sep
  pure (PExpr.concatStr args (some sep.value))

/-- `lpad(op)`: `_assert_literal` on `op.length` and `op.pad`, then
`arg.str.rjust(op.length.value, op.pad.value)`. -/
def lpad (arg : PExpr) (length pad : Child) : Except TError PExpr := do
  assertLiteral length
  assertLiteral pad
  pure (PExpr.rjust arg length.value pad.value)

/-- `rpad(op)`: `_assert_literal` on `op.length` and `op.pad`, then
`arg.str.ljust(op.length.value, op.pad.value)`. -/
def rpad (arg : PExpr) (length pad : Child) : Except TError PExpr := do
  assertLiteral length
  assertLiteral pad
  pure (PExpr.ljust arg length.value pad.value)

/-- The join kinds appearing in the `_join_types` table of the polars
compiler. -/
inductive JoinKind where
  | innerJ | leftJ | rightJ | outerJ | leftAntiJ | leftSemiJ
deriving DecidableEq

/-- The `_join_types` dict mapping join node types to polars `how`
strings. -/
def joinTypes : JoinKind → String
  | .innerJ => "inner"
  | .leftJ => "left"
  | .rightJ => "right"
  | .outerJ => "outer"
  | .leftAntiJ => "anti"
  | .leftSemiJ => "semi"

/-- A join predicate as the `join` rule sees it: an `ops.Equals` node
whose two sides translate to the given expressions, or any other node
type, identified by its type name. -/
inductive JoinPred where
  | equalsP (l r : PExpr)
  | otherP (tyName : String)

/-- The predicate loop of `join(op)`: append `translate(pred.left)` to
`left_on` and `translate(pred.right)` to `right_on` for each `Equals`
predicate, raising `TranslationError` on anything else. -/
def buildJoinOn : List JoinPred → Except TError (List PExpr × List PExpr)
  | [] => .ok ([], [])
  | .equalsP l r :: rest => do
      let (ls, rs) ← buildJoinOn rest
      pure (l :: ls, r :: rs)
  | .otherP ty :: _ =>
      .error (.translationError
        ("Polars backend is unable to compile join predicate with operation type of "
          ++ ty))

/-- `join(op)` from the polars compiler: translate both relations; for a
`RightJoin` set `how = 'left'` and swap the two relations (the
`left_on`/`right_on` lists are built from the predicates afterwards,
unswapped); otherwise look `how` up in `_join_types`; then render
`left.join(right, left_on, right_on, how)`. -/
def join (left right : LFrame) (kind : JoinKind) (preds : List JoinPred) :
    Except TError LFrame := do
  let (ltab, rtab, how) :=
    if kind = .rightJ then (right, left, "left")
    else (left, right, joinTypes kind)
  let (left_on, right_on) ← buildJoinOn preds
  pure (LFrame.joinF ltab rtab left_on right_on how)

/-- `dropna(op)` from the polars compiler: raise
`UnsupportedArgumentError` unless `op.how == 'any'`; then `drop_nulls`
with `subset = None`, or return the table untouched for an empty subset,
or `drop_nulls` on the subset's column names.  `table` is
`translate(op.table)` and `subset` carries the column names. -/
def dropna (how : String) (subset : Option (List String)) (table : LFrame) :
    Except TError LFrame :=
  if how ≠ "any" then
    .error (.unsupportedArgument
      ("Polars does not support how=" ++ how ++ " for dropna"))
  else
    match subset with
    | none => .ok (LFrame.dropNullsF table none)
    | some [] => .ok table
    | some names => .ok (LFrame.dropNullsF table (some names))

/-- One element of `op.selections` as the `selection` rule sees it: an
`ops.TableNode` (with its schema's column names), an `ops.Value` (with
its translation), or any other node type. -/
inductive SelItem where
  | tableItem (schemaNames : List String)
  | valueItem (e : PExpr)
  | otherItem (tyName : String)

/-- Whether a selection element falls into the error branch of the
`selection` rule. -/
def SelItem.isOther : SelItem → Bool
  | .otherItem _ => true
  | _ => false

/-- The selections loop of `selection(op)`: a `TableNode` expands to one
translated `TableColumn` (`pl.col(name)`) per schema column, a `Value`
contributes its own translation, and anything else raises
`TranslationError` (the source's message indeed says "DataFusion"). -/
def buildSelections : List SelItem → Except TError (List PExpr)
  | [] => .ok []
  | .tableItem names :: rest =>
      match buildSelections rest with
      | .ok more => .ok (names.map PExpr.col ++ more)
      | .error e => .error e
  | .valueItem e :: rest =>
      match buildSelections rest with
      | .ok more => .ok (e :: more)
      | .error err => .error err
  | .otherItem ty :: _ =>
      .error (.translationError
        ("DataFusion backend is unable to compile selection with operation type of "
          ++ ty))

/-- `selection(op)` from the polars compiler: filter by the
`functools.reduce(operator.and_, ...)` of the translated predicates when
the predicate list is non-empty, then build the selection list and
`select` it when non-empty, then `sort` by the sort keys' names and
descending flags when present.  `table` is `translate(op.table)` and
each sort key is a `(name, descending)` pair. -/
def selection (table : LFrame) (predicates : List PExpr)
    (selections : List SelItem) (sort_keys : List (String × Bool)) :
    Except TError LFrame :=
  let lf := match predicates with
    | [] => table
    | p :: ps => LFrame.filterF table (ps.foldl PExpr.andE p)
  match buildSelections selections with
  | .error e => .error e
  | .ok cols =>
    let lf := if cols.isEmpty then lf else LFrame.selectF lf cols
    let lf := if sort_keys.isEmpty then lf
      else LFrame.sortF lf (sort_keys.map Prod.fst) (sort_keys.map Prod.snd)
    .ok lf

/-- The node types needed by the dispatch claims.  `node`, `value`,
`unary`, `binary` come from `ibis/expr/operations/core.py`.
Modelled from the spec: the remaining types — `ibis.expr.operations`'s
concrete catalog is not among the shown files; per the spec's
capability-supertype catalog, `StringUnary` is a subtype of `Unary`,
`Strip` a concrete string function under `StringUnary`, `Abs` a concrete
arithmetic leaf under `Unary` (and not under `StringUnary`), and
`StringFind` a concrete type under `Value` with no other registered
ancestor. -/
inductive NType where
  | node | value | unary | binary | stringUnary
  | strip | absT | stringFind
deriving DecidableEq

/-- The method-resolution order of each node type: the type itself, then
its ancestors in declared inheritance order, ending at `Node`
(`functools.singledispatch` resolves along this chain). -/
def mro : NType → List NType
  | .node => [.node]
  | .value => [.value, .node]
  | .unary => [.unary, .value, .node]
  | .binary => [.binary, .value, .node]
  | .stringUnary => [.stringUnary, .unary, .value, .node]
  | .strip => [.strip, .stringUnary, .unary, .value, .node]
  | .absT => [.absT, .unary, .value, .node]
  | .stringFind => [.stringFind, .value, .node]

/-- Which of these types have a rule registered with
`@translate.register(...)` in `ibis/backends/polars/compiler.py`:
`ops.Node` (the catch-all `operation`), `ops.StringUnary`, `ops.Unary`
and `ops.Binary`; `Value`, `Strip`, `Abs` and `StringFind` have none. -/
def registered : NType → Bool
  | .node => true
  | .unary => true
  | .binary => true
  | .stringUnary => true
  | _ => false

/-- The rendering of `{type(op)}` in the catch-all's error message. -/
def typeName : NType → String
  | .node => "<class 'ibis.expr.operations.core.Node'>"
  | .value => "<class 'ibis.expr.operations.core.Value'>"
  | .unary => "<class 'ibis.expr.operations.core.Unary'>"
  | .binary => "<class 'ibis.expr.operations.core.Binary'>"
  | .stringUnary => "<class 'ibis.expr.operations.strings.StringUnary'>"
  | .strip => "<class 'ibis.expr.operations.strings.Strip'>"
  | .absT => "<class 'ibis.expr.operations.numeric.Abs'>"
  | .stringFind => "<class 'ibis.expr.operations.strings.StringFind'>"

/-- `functools.singledispatch` resolution for `translate`: the first
type along the node's method-resolution order that has a registered
rule. -/
def dispatchTarget (t : NType) : Option NType :=
  (mro t).find? (fun s => registered s)

/-- The outcome of `translate(op)` for a node of type `t`, abstracted to
which rule runs: the catch-all `operation(op)` registered for `ops.Node`
raises `OperationNotDefinedError` with
`f'No translation rule for {type(op)}'`; any other resolved rule renders
the node (represented by the owning type of the rule); with no
registration at all the undispatched base raises `NotImplementedError`
(unreachable: every chain ends at the registered `Node`). -/
def translateNode (t : NType) : Except TError NType :=
  match dispatchTarget t with
  | some .node =>
      .error (.operationNotDefined ("No translation rule for " ++ typeName t))
  | some s => .ok s
  | none => .error (.notImplemented (typeName t))

/-- Substring test: does `needle` occur contiguously inside `hay`?  Used
to state what an error message does or does not name. -/
def containsSub (hay needle : List Char) : Bool :=
  (List.range (hay.length + 1)).any (fun k => needle.isPrefixOf (hay.drop k))

/-- The three parameter kinds used by `Signature.merge`
(`inspect.Parameter` kinds in `ibis/common/annotations.py`). -/
inductive PKind where
  | positionalOrKeyword | keywordOnly | varPositional
deriving DecidableEq

/-- A `Parameter` of a `Signature`: its name, kind, and whether it has a
default (`hasDefault = false` models `param.default is EMPTY`, i.e. a
mandatory field; `Argument.optional` installs a `None` default, hence
`hasDefault = true`). -/
structure Param where
  name : String
  kind : PKind
  hasDefault : Bool
deriving DecidableEq

/-- A keyword annotation passed to `Signature.merge(**annotations)`:
the `Argument`'s kind and default-ness. -/
structure Annot where
  kind : PKind
  hasDefault : Bool
deriving DecidableEq

/-- An ordered parameter list, as `inspect.Signature` stores it. -/
abbrev Signature := List Param

/-- `params[name] = param` on an insertion-ordered dict: replace in
place when the name is present, else append. -/
def updateParams (ps : List Param) (p : Param) : List Param :=
  if ps.any (fun q => q.name == p.name) then
    ps.map (fun q => if q.name == p.name then p else q)
  else
    ps ++ [p]

/-- The mutable state of `Signature.merge`'s two accumulation loops:
the ordered `params` dict, the `inherited` name set, and the
`is_variadic` flag. -/
structure MergeState where
  params : List Param
  inheritedNames : List String
  isVariadic : Bool

/-- One iteration of the first loop of `Signature.merge`: fold a parent
signature's parameters into the state, recording every name as
inherited and latching `is_variadic`. -/
def mergeInheritStep (st : MergeState) (sig : Signature) : MergeState :=
  sig.foldl
    (fun st p =>
      { params := updateParams st.params p
        inheritedNames :=
          if st.inheritedNames.contains p.name then st.inheritedNames
          else st.inheritedNames ++ [p.name]
        isVariadic := st.isVariadic || (p.kind == PKind.varPositional) })
    st

/-- One iteration of the second loop of `Signature.merge`: a newly
declared annotation is forced to keyword-only kind when a variadic
parameter is already present, then stored under its name. -/
def mergeAnnotStep (st : MergeState) (na : String × Annot) : MergeState :=
  let a := if st.isVariadic then { na.2 with kind := PKind.keywordOnly } else na.2
  let p : Param := ⟨na.1, a.kind, a.hasDefault⟩
  { st with
      params := updateParams st.params p
      isVariadic := st.isVariadic || (p.kind == PKind.varPositional) }

/-- Both accumulation loops of `Signature.merge`, starting from the
empty state. -/
def mergeAssemble (sigs : List Signature) (annots : List (String × Annot)) :
    MergeState :=
  annots.foldl mergeAnnotStep (sigs.foldl mergeInheritStep ⟨[], [], false⟩)

/-- One iteration of the reordering loop of `Signature.merge`: place a
parameter into `inherited_args`, `new_args`, `new_kwargs` or
`inherited_kwargs` according to membership in `inherited` and
`param.default is EMPTY`. -/
def partitionStep (inherited : List String)
    (acc : List Param × List Param × List Param × List Param) (p : Param) :
    List Param × List Param × List Param × List Param :=
  if inherited.contains p.name then
    if p.hasDefault then
      (acc.1, acc.2.1, acc.2.2.1, acc.2.2.2 ++ [p])
    else
      (acc.1 ++ [p], acc.2.1, acc.2.2.1, acc.2.2.2)
  else
    if p.hasDefault then
      (acc.1, acc.2.1, acc.2.2.1 ++ [p], acc.2.2.2)
    else
      (acc.1, acc.2.1 ++ [p], acc.2.2.1, acc.2.2.2)

/-- The reordering loop of `Signature.merge`: distribute the assembled
parameters, in order, over the four buckets and return
`inherited_args + new_args + new_kwargs + inherited_kwargs`. -/
def mergePartition (ps : List Param) (inherited : List String) : List Param :=
  let acc := ps.foldl (partitionStep inherited) (([], [], [], []))
  acc.1 ++ acc.2.1 ++ acc.2.2.1 ++ acc.2.2.2

/-- `Signature.merge(*signatures, **annotations)` from
`ibis/common/annotations.py`: accumulate all parent parameters and the
new annotations into an ordered dict, then reorder so that mandatory
fields precede optional ones as the source's four buckets dictate. -/
def Signature.merge (sigs : List Signature) (annots : List (String × Annot)) :
    Signature :=
  let st := mergeAssemble sigs annots
  mergePartition st.params st.inheritedNames

/-- Whether a rule outcome is a `TranslationError`. -/
def isTranslationErr {α : Type} : Except TError α → Bool
  | .error (.translationError _) => true
  | _ => false

/-- Whether a rule outcome is an `UnsupportedArgumentError`. -/
def isUnsupportedArgErr {α : Type} : Except TError α → Bool
  | .error (.unsupportedArgument _) => true
  | _ => false

/-- Modelled from the spec: the cascade semantics of a simple case
expression — scan the `(case, result)` pairs in order and return the
first result whose case equals the base value, else the default. -/
def firstMatch (base : PVal) (pairs : List (PVal × PVal)) (default : PVal) :
    PVal :=
  match pairs with
  | [] => default
  | (c, r) :: rest => if base = c then r else firstMatch base rest default

/-- Modelled from the spec: the filter stage of a Selection — apply no
filter for an absent/empty predicate list, otherwise filter by the
logical AND (left-associated reduction) of the predicates. -/
def specFilterStage (predicates : List PExpr) (lf : LFrame) : LFrame :=
  match predicates with
  | [] => lf
  | p :: ps => LFrame.filterF lf (ps.foldl PExpr.andE p)

/-- Modelled from the spec: the projection stage of a Selection —
project the ordered column list (no-op when it is empty). -/
def specProjectStage (cols : List PExpr) (lf : LFrame) : LFrame :=
  if cols.isEmpty then lf else LFrame.selectF lf cols

/-- Modelled from the spec: the sort stage of a Selection — sort by the
sort keys' names and descending flags (no-op when there are none). -/
def specSortStage (sort_keys : List (String × Bool)) (lf : LFrame) : LFrame :=
  if sort_keys.isEmpty then lf
  else LFrame.sortF lf (sort_keys.map Prod.fst) (sort_keys.map Prod.snd)

/-- Modelled from the spec: the ordering invariant of `Signature.merge`
— inherited mandatory fields in their original order, then newly
declared mandatory fields, then newly declared optional fields, then
inherited optional fields. -/
def orderedByBuckets (st : MergeState) : Signature :=
  st.params.filter (fun p => st.inheritedNames.contains p.name && !p.hasDefault)
    ++ st.params.filter
      (fun p => !st.inheritedNames.contains p.name && !p.hasDefault)
    ++ st.params.filter
      (fun p => !st.inheritedNames.contains p.name && p.hasDefault)
    ++ st.params.filter
      (fun p => st.inheritedNames.contains p.name && p.hasDefault)

/-- `Argument.mandatory()`: positional-or-keyword, default `EMPTY`. -/
def mandatoryAnnot : Annot := ⟨.positionalOrKeyword, false⟩

/-- `Argument.optional()`: positional-or-keyword with a `None` default. -/
def optionalAnnot : Annot := ⟨.positionalOrKeyword, true⟩

/-- A base signature with two mandatory fields `a` and `b`. -/
def baseSigAB : Signature :=
  [⟨"a", .positionalOrKeyword, false⟩, ⟨"b", .positionalOrKeyword, false⟩]

/-- Claim C9: a `Substring` node whose length is a Literal with value 0
renders as the two-argument `substr(arg, start + 1)` — identical to the
fragment produced when the length is absent — rather than a
three-argument form with length 0. -/
theorem substring_literal_zero_length_omitted (a s : String) :
    substring a s (some (.litI 0)) = substring a s none ∧
    substring a s (some (.litI 0)) = "substr(" ++ a ++ ", " ++ s ++ " + 1)" := by
  constructor <;> rfl

/-- Claim C3 (code bug): with no start offset, `string_find` emits a
fragment subtracting 1 from the 1-indexed `locate` result, and a
non-literal start offset is emitted with `+ 1`; but a supplied Literal
start offset of value 0 falls through both branches of the Python
function, which returns `None` instead of a fragment with the offset
incremented. -/
theorem string_find_literal_zero_start_returns_none :
    string_find "arg" "substr" none = some "locate(substr, arg) - 1" ∧
    string_find "arg" "substr" (some (.nonlit "s")) =
      some "locate(substr, arg, s + 1) - 1" ∧
    string_find "arg" "substr" (some (.litI 2)) =
      some "locate(substr, arg, 3) - 1" ∧
    string_find "arg" "substr" (some (.litI 0)) = none := by
  refine ⟨?_, ?_, ?_, ?_⟩ <;> rfl

/-- Claim C10: for every string argument and literal boundary argument,
the polars renderings of `StartsWith` and `EndsWith` coincide — both
produce `ends_with` applied to the boundary literal's value. -/
theorem startswith_endswith_renderings_agree (arg : PExpr) (name : String)
    (v : PVal) :
    string_startswith arg (.literalC name v) =
      string_endswith arg (.literalC name v) ∧
    string_startswith arg (.literalC name v) = .ok (.endsWith arg v) := by
  constructor <;> rfl

/-- Claim C4 (code bug): a `RightJoin` with the single equality
predicate `Equals(col a, col b)` renders as a left join with the two
relations swapped, but with `left_on = [col a]` and
`right_on = [col b]` taken unswapped from the predicate sides — so the
columns of the predicates' left sides (which refer to the original left
relation) are matched against the original right relation now used as
the join's left input. -/
theorem right_join_does_not_swap_on_lists :
    join (.base "t1") (.base "t2") .rightJ [.equalsP (.col "a") (.col "b")] =
      .ok (.joinF (.base "t2") (.base "t1") [.col "a"] [.col "b"] "left") := by
  rfl

/-- Claim C8 (counterexample): translating a `DropNa` node with
`how = 'all'` raises `UnsupportedArgumentError`, not the
`TranslationError` the claim assigns to unsupported null-handling
policies. -/
theorem dropna_all_raises_unsupported_argument :
    dropna "all" none (.base "t") =
      .error (.unsupportedArgument
        "Polars does not support how=all for dropna") ∧
    isTranslationErr (dropna "all" none (.base "t")) = false := by
  constructor <;> rfl

/-- Claim C8 (amended): for every `DropNa` node whose `how` policy is
anything other than `'any'`, translation fails with an
`UnsupportedArgumentError` identifying the offending policy. -/
theorem dropna_unsupported_how_errors (how : String)
    (subset : Option (List String)) (table : LFrame) (h : how ≠ "any") :
    dropna how subset table =
      .error (.unsupportedArgument
        ("Polars does not support how=" ++ how ++ " for dropna")) := by
  simp [dropna, h]

/-- Witness for `dropna_unsupported_how_errors` at `how = 'all'`. -/
theorem dropna_unsupported_how_errors_witness :
    dropna "all" (some ["x"]) (.base "t") =
      .error (.unsupportedArgument
        ("Polars does not support how=" ++ "all" ++ " for dropna")) :=
  dropna_unsupported_how_errors "all" (some ["x"]) (.base "t") (by decide)

/-- Claim C6: every literal-only polars rendering rule (`lpad`/`rpad`
pad character and length, `string_split` delimiter, `string_join`
separator) fails with `UnsupportedArgumentError` — producing no
rendering — whenever the constrained child node is not a Literal. -/
theorem literal_only_rules_reject_computed_arguments :
    (∀ (arg : PExpr) (length pad : Child),
      length.isLiteral = false ∨ pad.isLiteral = false →
        isUnsupportedArgErr (lpad arg length pad) = true) ∧
    (∀ (arg : PExpr) (length pad : Child),
      length.isLiteral = false ∨ pad.isLiteral = false →
        isUnsupportedArgErr (rpad arg length pad) = true) ∧
    (∀ (arg : PExpr) (delimiter : Child),
      delimiter.isLiteral = false →
        isUnsupportedArgErr (string_split arg delimiter) = true) ∧
    (∀ (args : List PExpr) (sep : Child),
      sep.isLiteral = false →
        isUnsupportedArgErr (string_join args sep) = true) := by
  refine ⟨?_, ?_, ?_, ?_⟩
  · intro arg length pad h
    cases length with
    | computedC n => rfl
    | literalC n v =>
      cases pad with
      | computedC m => rfl
      | literalC m w => simp [Child.isLiteral] at h
  · intro arg length pad h
    cases length with
    | computedC n => rfl
    | literalC n v =>
      cases pad with
      | computedC m => rfl
      | literalC m w => simp [Child.isLiteral] at h
  · intro arg delimiter h
    cases delimiter with
    | computedC n => rfl
    | literalC n v => simp [Child.isLiteral] at h
  · intro args sep h
    cases sep with
    | computedC n => rfl
    | literalC n v => simp [Child.isLiteral] at h

/-- Witness for `literal_only_rules_reject_computed_arguments`: a
computed pad argument to `lpad` is rejected. -/
theorem literal_only_rules_reject_computed_arguments_witness :
    isUnsupportedArgErr
      (lpad (.col "x") (.literalC "5" (.i 5)) (.computedC "Lowercase(y)")) =
      true :=
  literal_only_rules_reject_computed_arguments.1
    (.col "x") (.literalC "5" (.i 5)) (.computedC "Lowercase(y)")
    (Or.inr rfl)

/-- Claim C2 (counterexample): `StringFind` has no registered rule and
no registered ancestor below `Node`, so translation fails through the
`Node` catch-all; the resulting error message names the concrete node
type but contains no occurrence of the backend name ("Polars"/"polars"),
so the error does not name the backend. -/
theorem dispatch_error_does_not_name_backend :
    translateNode .stringFind =
      .error (.operationNotDefined
        ("No translation rule for " ++ typeName .stringFind)) ∧
    containsSub ("No translation rule for " ++ typeName .stringFind).toList
      "olars".toList = false := by
  constructor
  · rfl
  · decide

/-- Claim C2 (amended): dispatch uses the rule registered for the exact
runtime type when one exists; otherwise the rule of the nearest
registered ancestor in declared inheritance order (the unregistered
`Unary` subtype `Abs`, not a `StringUnary`, resolves to the `Unary`
rule, and `Strip` resolves to `StringUnary`); and when only the `Node`
catch-all matches, translation fails with an error naming the concrete
node type — the backend is not named. -/
theorem dispatch_resolves_exact_then_nearest_ancestor :
    (∀ t : NType, registered t = true → t ≠ .node →
      translateNode t = .ok t) ∧
    translateNode .absT = .ok .unary ∧
    translateNode .strip = .ok .stringUnary ∧
    (∀ t : NType, dispatchTarget t = some .node →
      translateNode t =
        .error (.operationNotDefined
          ("No translation rule for " ++ typeName t))) ∧
    containsSub ("No translation rule for " ++ typeName .stringFind).toList
      (typeName .stringFind).toList = true := by
  refine ⟨?_, rfl, rfl, ?_, by decide⟩
  · intro t h hn
    cases t with
    | node => exact absurd rfl hn
    | value => simp [registered] at h
    | unary => rfl
    | binary => rfl
    | stringUnary => rfl
    | strip => simp [registered] at h
    | absT => simp [registered] at h
    | stringFind => simp [registered] at h
  · intro t h
    cases t with
    | node => rfl
    | value => rfl
    | unary => simp [dispatchTarget, mro, registered] at h
    | binary => simp [dispatchTarget, mro, registered] at h
    | stringUnary => simp [dispatchTarget, mro, registered] at h
    | strip => simp [dispatchTarget, mro, registered] at h
    | absT => simp [dispatchTarget, mro, registered] at h
    | stringFind => rfl

/-- Witness for `dispatch_resolves_exact_then_nearest_ancestor`: the
exact-match branch at `Unary` and the catch-all branch at `Value`. -/
theorem dispatch_resolves_exact_then_nearest_ancestor_witness :
    translateNode .unary = .ok .unary ∧
    translateNode .value =
      .error (.operationNotDefined
        ("No translation rule for " ++ typeName .value)) :=
  ⟨dispatch_resolves_exact_then_nearest_ancestor.1 .unary rfl (by decide),
   dispatch_resolves_exact_then_nearest_ancestor.2.2.2.1 .value rfl⟩

/-- The reversed `foldl` of `simple_case` is a right fold over the
condition-result pairs with the default as initial accumulator. -/
theorem simple_case_eq_foldr (base : PExpr) (cases results : List PExpr)
    (default : PExpr) :
    simple_case base cases results default =
      (cases.zip results).foldr
        (fun cr acc => PExpr.whenThenOtherwise (PExpr.eqE base cr.1) cr.2 acc)
        default := by
  unfold simple_case
  rw [List.foldl_reverse]

/-- The reversed `foldl` of `searched_case` is a right fold over the
condition-result pairs with the default as initial accumulator. -/
theorem searched_case_eq_foldr (cases results : List PExpr)
    (default : PExpr) :
    searched_case cases results default =
      (cases.zip results).foldr
        (fun cr acc => PExpr.whenThenOtherwise cr.1 cr.2 acc)
        default := by
  unfold searched_case
  rw [List.foldl_reverse]

/-- Evaluating a `simple_case` rendering over literal children returns
the result of the first pair whose case value equals the base value,
and the default when none matches. -/
theorem peval_simple_case_literals (base default : PVal)
    (pairs : List (PVal × PVal)) :
    peval (simple_case (.lit base) (pairs.map fun p => .lit p.1)
        (pairs.map fun p => .lit p.2) (.lit default)) =
      some (firstMatch base pairs default) := by
  rw [simple_case_eq_foldr, List.zip_map', List.foldr_map]
  induction pairs with
  | nil => rfl
  | cons p rest ih =>
    simp only [List.foldr_cons]
    by_cases h : base = p.1
    · simp [peval, firstMatch, h]
    · have hb : (base == p.1) = false := beq_eq_false_iff_ne.mpr h
      simp [peval, firstMatch, h, hb, ih]

/-- Claim C5: both case renderings are built by folding the
condition-result pairs from the last toward the first with the default
as initial accumulator; consequently the first matching condition wins,
and the SimpleCase with pairs `[(1, "a"), (2, "b")]` and default `"z"`
evaluates to `"a"` on base value 1 and to `"z"` on base value 3. -/
theorem case_renderings_first_match_wins :
    (∀ (base : PExpr) (cases results : List PExpr) (default : PExpr),
      simple_case base cases results default =
        (cases.zip results).foldr
          (fun cr acc =>
            PExpr.whenThenOtherwise (PExpr.eqE base cr.1) cr.2 acc)
          default) ∧
    (∀ (cases results : List PExpr) (default : PExpr),
      searched_case cases results default =
        (cases.zip results).foldr
          (fun cr acc => PExpr.whenThenOtherwise cr.1 cr.2 acc)
          default) ∧
    (∀ (base default : PVal) (pairs : List (PVal × PVal)),
      peval (simple_case (.lit base) (pairs.map fun p => .lit p.1)
          (pairs.map fun p => .lit p.2) (.lit default)) =
        some (firstMatch base pairs default)) ∧
    peval (simple_case (.lit (.i 1)) [.lit (.i 1), .lit (.i 2)]
        [.lit (.s "a"), .lit (.s "b")] (.lit (.s "z"))) = some (.s "a") ∧
    peval (simple_case (.lit (.i 3)) [.lit (.i 1), .lit (.i 2)]
        [.lit (.s "a"), .lit (.s "b")] (.lit (.s "z"))) = some (.s "z") := by
  refine ⟨simple_case_eq_foldr, searched_case_eq_foldr,
    peval_simple_case_literals, ?_, ?_⟩ <;> decide

/-- When some selection element is neither a table nor a value node, the
selections loop raises `TranslationError`. -/
theorem buildSelections_error_of_other (sels : List SelItem)
    (h : ∃ i ∈ sels, SelItem.isOther i = true) :
    ∃ m, buildSelections sels = .error (.translationError m) := by
  induction sels with
  | nil => simp at h
  | cons s rest ih =>
    obtain ⟨i, hi, ho⟩ := h
    cases s with
    | otherItem ty => exact ⟨_, rfl⟩
    | tableItem names =>
      rcases List.mem_cons.mp hi with h1 | h2
      · subst h1; simp [SelItem.isOther] at ho
      · obtain ⟨m, hm⟩ := ih ⟨i, h2, ho⟩
        exact ⟨m, by simp [buildSelections, hm]⟩
    | valueItem e =>
      rcases List.mem_cons.mp hi with h1 | h2
      · subst h1; simp [SelItem.isOther] at ho
      · obtain ⟨m, hm⟩ := ih ⟨i, h2, ho⟩
        exact ⟨m, by simp [buildSelections, hm]⟩

/-- Claim C7: the `selection` rule applies, in order, the filter by the
conjunction of the predicates (no filter for an empty list), then the
projection of the ordered selection list (table elements expanding to
all their columns, value elements to one expression each), then the
sort by the sort keys; and any other kind of selection element makes
translation fail with a `TranslationError`. -/
theorem selection_applies_filter_project_sort :
    (∀ (table : LFrame) (predicates : List PExpr)
        (selections : List SelItem) (sort_keys : List (String × Bool))
        (cols : List PExpr),
      buildSelections selections = .ok cols →
        selection table predicates selections sort_keys =
          .ok (specSortStage sort_keys
            (specProjectStage cols (specFilterStage predicates table)))) ∧
    (∀ (table : LFrame) (predicates : List PExpr)
        (selections : List SelItem) (sort_keys : List (String × Bool)),
      (∃ i ∈ selections, SelItem.isOther i = true) →
        isTranslationErr (selection table predicates selections sort_keys) =
          true) := by
  constructor
  · intro table predicates selections sort_keys cols hm
    unfold selection
    rw [hm]
    rfl
  · intro table predicates selections sort_keys h
    obtain ⟨m, hm⟩ := buildSelections_error_of_other selections h
    unfold selection
    rw [hm]
    rfl

/-- Witness for `selection_applies_filter_project_sort`: a filtered,
projected and sorted selection, and a failing selection element. -/
theorem selection_applies_filter_project_sort_witness :
    selection (.base "t") [.col "p"]
        [.tableItem ["a", "b"], .valueItem (.col "x")] [("a", true)] =
      .ok (specSortStage [("a", true)]
        (specProjectStage [.col "a", .col "b", .col "x"]
          (specFilterStage [.col "p"] (.base "t")))) ∧
    isTranslationErr (selection (.base "t") [] [.otherItem "Limit"] []) =
      true :=
  ⟨selection_applies_filter_project_sort.1 (.base "t") [.col "p"]
      [.tableItem ["a", "b"], .valueItem (.col "x")] [("a", true)]
      [.col "a", .col "b", .col "x"] rfl,
   selection_applies_filter_project_sort.2 (.base "t") [] [.otherItem "Limit"]
      [] ⟨.otherItem "Limit", by simp, rfl⟩⟩

/-- The four-bucket accumulation loop of `Signature.merge` computes, in
original parameter order, the four filters "inherited mandatory",
"new mandatory", "new optional", "inherited optional". -/
theorem partitionStep_foldl (inh : List String) (ps : List Param)
    (a b c d : List Param) :
    ps.foldl (partitionStep inh) (a, b, c, d) =
      (a ++ ps.filter (fun p => inh.contains p.name && !p.hasDefault),
       b ++ ps.filter (fun p => !inh.contains p.name && !p.hasDefault),
       c ++ ps.filter (fun p => !inh.contains p.name && p.hasDefault),
       d ++ ps.filter (fun p => inh.contains p.name && p.hasDefault)) := by
  induction ps generalizing a b c d with
  | nil => simp
  | cons p ps ih =>
    rw [List.foldl_cons]
    by_cases h1 : p.name ∈ inh <;> cases h2 : p.hasDefault <;>
      simp [partitionStep, h1, h2, ih, List.filter_cons]

/-- Claim C1: `Signature.merge` returns the parameters ordered as
inherited mandatory fields (in their original declaration order), then
newly declared mandatory fields, then newly declared optional fields,
then inherited optional fields; in particular a base with mandatory
`{a, b}` and a child adding optional `{c}` yields `[a, b, c]`, and
further adding mandatory `{d}` yields `[a, b, d, c]`. -/
theorem merge_orders_inherited_and_new_fields :
    (∀ (sigs : List Signature) (annots : List (String × Annot)),
      Signature.merge sigs annots =
        orderedByBuckets (mergeAssemble sigs annots)) ∧
    (Signature.merge [baseSigAB] [("c", optionalAnnot)]).map Param.name =
      ["a", "b", "c"] ∧
    (Signature.merge [baseSigAB]
        [("c", optionalAnnot), ("d", mandatoryAnnot)]).map Param.name =
      ["a", "b", "d", "c"] := by
  refine ⟨?_, by decide, by decide⟩
  intro sigs annots
  simp [Signature.merge, mergePartition, orderedByBuckets, partitionStep_foldl]
